import Mathlib

/-!
# Vital product data (`project2/vpd.c`)

A shallow embedding of the four functions of `vpd.c`
(`vpd_token_cmp`, `vpd_is_data_valid`, `vpd_write_defaults`, `vpd_init`)
together with the collaborators they call (`eeprom.h`, `util.h`), and the
properties of the record validation and repair routine.

Conventions of the embedding:

* a byte is a `Nat`; a `struct vpd_struct` seen through the
  `(unsigned char *)` cast is the list of its `VPD_SIZE` bytes, field after
  field, so that `vpd.token[i]` is byte `i` of the image and `checksum` is
  byte `VPD_SIZE - 1`;
* the program state is the pair of globals `vpd` and `defaults` and the
  EEPROM (its cells and its busy flag);
* a loop takes fuel and yields `none` when the fuel runs out.
-/

namespace Vpd

/-! ## Constants -/

/-- The constant `VPD_ADDR` of `vpd.c`. -/
def VPD_ADDR : Nat := 0x0000

/-- The constant `VPD_SIZE` of `vpd.c`. -/
def VPD_SIZE : Nat := 55

/-- The constant `VPD_TOKEN` of `vpd.c`: the string literal `"SER"`, that is
the characters `S`, `E`, `R` and the terminating null character. -/
def VPD_TOKEN : List Nat := [83, 69, 82, 0]

/-! ## The record -/

/-- Modelled from the spec: the declaration of `struct vpd_struct` (header
`vpd.h`) is not among the sources. The fields and their order are those of
the data model (token, model, manufacturer, serial number, manufacture date,
MAC address of 6 bytes, country of origin, one checksum byte) and of the
initialiser of `defaults`; the character fields are lists of character
codes. -/
structure vpd_struct where
  token : List Nat
  model : List Nat
  manufacturer : List Nat
  serial_number : List Nat
  manufacture_date : Nat
  mac_address : List Nat
  country_of_origin : List Nat
  checksum : Nat
deriving Repr, DecidableEq

/-- A character array of width `w` initialised from `s`: the characters of
`s`, then null characters up to the width. -/
def charField (w : Nat) (s : List Nat) : List Nat :=
  (s ++ List.replicate (w - s.length) 0).take w

/-- The four bytes of a 32-bit integer, least significant first. -/
def le32 (n : Nat) : List Nat :=
  [n % 256, n / 256 % 256, n / 65536 % 256, n / 16777216 % 256]

/-- Modelled from the spec: the byte image of a `struct vpd_struct`, the
object that `(unsigned char *) &vpd` points to. The field widths belong to
the missing header `vpd.h`; the widths used here (4, 12, 12, 12, 4, 6, 4, 1)
hold every initialiser of `defaults` with its terminator and add up to
`VPD_SIZE`. -/
def vpd_struct.toBytes (r : vpd_struct) : List Nat :=
  charField 4 r.token ++ charField 12 r.model ++ charField 12 r.manufacturer ++
  charField 12 r.serial_number ++ le32 r.manufacture_date ++
  charField 6 r.mac_address ++ charField 4 r.country_of_origin ++ [r.checksum % 256]

/-- The initialiser of the static `defaults` of `vpd.c`. -/
def defaults : vpd_struct where
  token := [83, 69, 82]
  model := [84, 121]
  manufacturer := [70, 111, 115, 116, 101, 114]
  serial_number := [83, 50, 51, 57, 66, 48, 49, 85, 55, 54, 88]
  manufacture_date := 0
  mac_address := [Nat.land 116 0xFE, 121, 32, 102, 111, 115]
  country_of_origin := [85, 83, 65]
  checksum := 0

/-! ## Collaborators: checksum utility and EEPROM driver -/

/-- Modelled from the spec: the checksum utility of `util.h`, which is not
among the sources. `is_checksum_valid data size` is the verdict of the
verification over the first `size` bytes of `data`; `checksum data size` is
the value that the update computes for the checksum byte. -/
structure ChecksumUtil where
  is_checksum_valid : List Nat → Nat → Bool
  checksum : List Nat → Nat → Nat

/-- Modelled from the spec: `update_checksum(data, size)` of `util.h`
"computes and writes the checksum byte into the buffer": the last of the
`size` bytes receives the computed value, the others are left alone. -/
def update_checksum (cu : ChecksumUtil) (data : List Nat) (size : Nat) : List Nat :=
  data.set (size - 1) (cu.checksum data size)

/-- The contract of the checksum utility: a buffer of `VPD_SIZE` bytes that
has just been updated passes the verification. -/
def ChecksumUtil.Meets (cu : ChecksumUtil) : Prop :=
  ∀ data : List Nat, data.length = VPD_SIZE →
    cu.is_checksum_valid (update_checksum cu data VPD_SIZE) VPD_SIZE = true

/-- Modelled from the spec: a checksum utility whose relation is "the sum of
all the bytes is zero modulo 256" (the sentinel the data model calls the
common one). -/
def sumChecksum : ChecksumUtil where
  is_checksum_valid data size := (data.take size).sum % 256 == 0
  checksum data size := (256 - (data.take (size - 1)).sum % 256) % 256

/-- The program state: the global live record `vpd`, the static `defaults`
(both as byte images), the cells of the EEPROM and its busy flag. -/
structure State where
  vpd : List Nat
  defaults : List Nat
  eeprom : Nat → Nat
  busy : Bool

/-- Modelled from the spec: `eeprom_readbuf(addr, buf, size)` of `eeprom.h`
"copies `size` bytes starting at `addr` into `buf`"; what `buf` holds beyond
`size` stays. -/
def eeprom_readbuf (mem : Nat → Nat) (addr : Nat) (buf : List Nat) (size : Nat) : List Nat :=
  (List.range size).map (fun k => mem (addr + k)) ++ buf.drop size

/-- Modelled from the spec: `eeprom_writebuf(addr, buf, size)` of `eeprom.h`
"copies `size` bytes from `buf` to storage starting at `addr`", on an ideal
storage where the bytes are in place when the call returns. -/
def eeprom_writebuf (mem : Nat → Nat) (addr : Nat) (buf : List Nat) (size : Nat) : Nat → Nat :=
  fun a => if addr ≤ a ∧ a < addr + size then buf.getD (a - addr) 0 else mem a

/-- Modelled from the spec: `eeprom_isbusy()` of `eeprom.h`, "true if a prior
write is still in progress"; polling does not change the flag. -/
def eeprom_isbusy (s : State) : Bool := s.busy

/-! ## The functions of `vpd.c` -/

/-- The `for` loop of `vpd_token_cmp`, from the loop variable `i` (an
`unsigned char`) and the current `ret`; the result is the pair of `i` and
`ret` at the exit of the loop. The condition reads `vpd.token[i]`, then
`VPD_TOKEN[i]`, then `ret`. -/
def token_loop (vpd : List Nat) : Nat → Nat → Nat → Option (Nat × Nat)
  | 0, _, _ => none
  | fuel + 1, i, ret =>
    if vpd.getD i 0 != 0 && VPD_TOKEN.getD i 0 != 0 && ret != 0 then
      token_loop vpd fuel ((i + 1) % 256)
        (if vpd.getD i 0 != VPD_TOKEN.getD i 0 then 0 else ret)
    else some (i, ret)

/-- The function `vpd_token_cmp` of `vpd.c`, on the byte image of `vpd`. -/
def vpd_token_cmp (fuel : Nat) (vpd : List Nat) : Option Nat :=
  match token_loop vpd fuel 0 1 with
  | none => none
  | some (i, ret) => some (if vpd.getD i 0 != VPD_TOKEN.getD i 0 then 0 else ret)

/-- The function `vpd_is_data_valid` of `vpd.c`. -/
def vpd_is_data_valid (cu : ChecksumUtil) (fuel : Nat) (vpd : List Nat) : Option Nat :=
  match vpd_token_cmp fuel vpd with
  | none => none
  | some t =>
    let ret := 1
    let ret := if t != 0 then 0 else ret
    let ret := if !cu.is_checksum_valid vpd VPD_SIZE then 0 else ret
    some ret

/-- The function `vpd_write_defaults` of `vpd.c`. -/
def vpd_write_defaults (cu : ChecksumUtil) (s : State) : State :=
  let d := update_checksum cu s.defaults VPD_SIZE
  { s with defaults := d, eeprom := eeprom_writebuf s.eeprom VPD_ADDR d VPD_SIZE }

/-- The loop `while(eeprom_isbusy());` of `vpd_init`. -/
def wait_not_busy : Nat → State → Option State
  | 0, _ => none
  | fuel + 1, s => if eeprom_isbusy s then wait_not_busy fuel s else some s

/-- The function `vpd_init` of `vpd.c`. -/
def vpd_init (cu : ChecksumUtil) (fuel : Nat) (s : State) : Option State :=
  match wait_not_busy fuel s with
  | none => none
  | some s =>
    let s := { s with vpd := eeprom_readbuf s.eeprom VPD_ADDR s.vpd VPD_SIZE }
    match vpd_is_data_valid cu fuel s.vpd with
    | none => none
    | some v =>
      if v = 0 then
        let s := vpd_write_defaults cu s
        some { s with vpd := eeprom_readbuf s.eeprom VPD_ADDR s.vpd VPD_SIZE }
      else some s

/-! ## Vocabulary of the properties -/

/-- The token field of a record image: its first four bytes. -/
def tokenField (vpd : List Nat) : List Nat := vpd.take 4

/-- A character array read as a null-terminated string: the characters before
the first null character. -/
def cstr (field : List Nat) : List Nat := field.takeWhile (fun c => c != 0)

/-- The bytes of the EEPROM at addresses `0 .. VPD_SIZE - 1`. -/
def stored (mem : Nat → Nat) : List Nat :=
  (List.range VPD_SIZE).map (fun k => mem (VPD_ADDR + k))

/-- The four token bytes of a record image are those of `VPD_TOKEN`: the
characters of `"SER"` in positions 0 to 2 and the terminator in position 3. -/
def tokenIsSER (vpd : List Nat) : Bool :=
  vpd.getD 0 0 == 83 && vpd.getD 1 0 == 69 && vpd.getD 2 0 == 82 && vpd.getD 3 0 == 0

/-- The state in which `vpd_init` leaves `s` when it takes the repair branch:
the defaults carry their checksum, the record cells of the EEPROM hold them
and the live record has been read back from those cells. -/
def repaired (cu : ChecksumUtil) (s : State) : State :=
  let t := vpd_write_defaults cu
    { s with vpd := eeprom_readbuf s.eeprom VPD_ADDR s.vpd VPD_SIZE }
  { t with vpd := eeprom_readbuf t.eeprom VPD_ADDR t.vpd VPD_SIZE }

/-- The state in which `vpd_init` leaves `s` when it skips the repair
branch: only the live record changed, to what the EEPROM holds. -/
def loaded (s : State) : State :=
  { s with vpd := eeprom_readbuf s.eeprom VPD_ADDR s.vpd VPD_SIZE }

/-! ## Concrete records and states -/

/-- A storage whose first cells hold the bytes `l` and whose other cells
are erased (`0xFF`). -/
def memOf (l : List Nat) : Nat → Nat := fun a => l.getD a 0xFF

/-- The state at start-up over a storage `mem`: the live record is zeroed,
the defaults are their initialiser, the storage is idle. -/
def bootState (mem : Nat → Nat) : State :=
  { vpd := List.replicate VPD_SIZE 0, defaults := defaults.toBytes, eeprom := mem,
    busy := false }

/-- What a test observes of a state: the live record, the defaults and the
record cells of the storage. -/
def observe (s : State) : List Nat × List Nat × List Nat :=
  (s.vpd, s.defaults, stored s.eeprom)

/-- The defaults with the checksum of the sum-of-bytes utility. -/
def defaultsSummed : List Nat := update_checksum sumChecksum defaults.toBytes VPD_SIZE

/-- A record of zero bytes: its token is the empty string. -/
def zeroRecord : List Nat := List.replicate VPD_SIZE 0

/-- A record with token `"XYZ"`, zeroed fields and the checksum byte that the
sum-of-bytes utility accepts. -/
def badTokenRecord : List Nat := [88, 89, 90, 0] ++ List.replicate 50 0 ++ [245]

/-- The fields of a unit other than the default one, with the token `"SER"`. -/
def otherFields : vpd_struct :=
  { defaults with
    model := [90, 122]
    serial_number := [83, 48, 48, 48, 48, 48, 48, 48, 48, 48, 49]
    manufacture_date := 20201120 }

/-- The record of `otherFields` with the checksum of the sum-of-bytes
utility. -/
def otherRecord : List Nat := update_checksum sumChecksum otherFields.toBytes VPD_SIZE

/-- A record with an empty token, a one in the last byte of the country field
and a checksum byte that the sum-of-bytes utility accepts. -/
def strayRecord : List Nat := List.replicate 53 0 ++ [1, 255]

/-- The record `defaultsSummed` with the lowest bit of its checksum byte
flipped. -/
def flippedRecord : List Nat :=
  defaultsSummed.set (VPD_SIZE - 1) (Nat.xor (defaultsSummed.getD (VPD_SIZE - 1) 0) 1)

/-! ## The token comparison with its reads observed -/

/-- A run of `vpd_token_cmp` as it is observed: the loop variable `i` and
`ret`, the number of executions of the loop body, and the indices at which
`vpd.token` and the literal `VPD_TOKEN` have been read, in order. -/
structure CmpRun where
  i : Nat
  ret : Nat
  iterations : Nat
  tokenReads : List Nat
  literalReads : List Nat
deriving Repr, DecidableEq

/-- The `for` loop of `vpd_token_cmp` with its reads recorded. The condition
`vpd.token[i]!='\0' && VPD_TOKEN[i]!='\0' && ret` reads `vpd.token[i]`, reads
`VPD_TOKEN[i]` when the first test holds, and `ret` when the second holds;
the body reads `vpd.token[i]` and `VPD_TOKEN[i]`. -/
def token_loop_run (vpd : List Nat) : Nat → CmpRun → Option CmpRun
  | 0, _ => none
  | fuel + 1, r =>
    if vpd.getD r.i 0 != 0 then
      if VPD_TOKEN.getD r.i 0 != 0 then
        if r.ret != 0 then
          token_loop_run vpd fuel
            { i := (r.i + 1) % 256
              ret := if vpd.getD r.i 0 != VPD_TOKEN.getD r.i 0 then 0 else r.ret
              iterations := r.iterations + 1
              tokenReads := r.tokenReads ++ [r.i, r.i]
              literalReads := r.literalReads ++ [r.i, r.i] }
        else
          some { r with
            tokenReads := r.tokenReads ++ [r.i]
            literalReads := r.literalReads ++ [r.i] }
      else
        some { r with
          tokenReads := r.tokenReads ++ [r.i]
          literalReads := r.literalReads ++ [r.i] }
    else some { r with tokenReads := r.tokenReads ++ [r.i] }

/-- The function `vpd_token_cmp` with its reads recorded: the loop from
`i = 0` and `ret = 1`, then the comparison after the loop, which reads
`vpd.token[i]` and `VPD_TOKEN[i]` at the exit index. The result is the value
returned and the run. -/
def vpd_token_cmp_run (fuel : Nat) (vpd : List Nat) : Option (Nat × CmpRun) :=
  match token_loop_run vpd fuel
      { i := 0, ret := 1, iterations := 0, tokenReads := [], literalReads := [] } with
  | none => none
  | some r =>
    some (if vpd.getD r.i 0 != VPD_TOKEN.getD r.i 0 then 0 else r.ret,
      { r with
        tokenReads := r.tokenReads ++ [r.i]
        literalReads := r.literalReads ++ [r.i] })

/-- The checksum that the utility computes for a buffer of `VPD_SIZE` bytes
is determined by the first 54 bytes of the buffer. -/
def ChecksumUtil.FromBody (cu : ChecksumUtil) : Prop :=
  ∀ d e : List Nat, d.take (VPD_SIZE - 1) = e.take (VPD_SIZE - 1) →
    cu.checksum d VPD_SIZE = cu.checksum e VPD_SIZE

/-- A record whose token field holds `S`, `E`, `R`, `X` and whose other
bytes are non-null as well: no byte of the image is a terminator. -/
def unterminatedRecord : List Nat := [83, 69, 82, 88] ++ List.replicate 51 7

/-! ## The token comparison -/

theorem token_loop_fuel_mono (vpd : List Nat) (fuel i ret : Nat) (r : Nat × Nat)
    (h : token_loop vpd fuel i ret = some r) :
    token_loop vpd (fuel + 1) i ret = some r := by
  induction fuel generalizing i ret with
  | zero => simp [token_loop] at h
  | succ n ih =>
    rw [token_loop] at h
    rw [token_loop]
    split
    · rename_i hc
      rw [if_pos hc] at h
      exact ih _ _ h
    · rename_i hc
      rw [if_neg hc] at h
      exact h

theorem token_loop_fuel_le (vpd : List Nat) (f g i ret : Nat) (r : Nat × Nat)
    (hfg : f ≤ g) (h : token_loop vpd f i ret = some r) :
    token_loop vpd g i ret = some r := by
  induction hfg with
  | refl => exact h
  | step _ ih => exact token_loop_fuel_mono vpd _ i ret r ih

theorem token_loop_four (vpd : List Nat) :
    token_loop vpd 4 0 1 =
      some (if vpd.getD 0 0 = 0 then (0, 1)
        else if vpd.getD 0 0 ≠ 83 then (1, 0)
        else if vpd.getD 1 0 = 0 then (1, 1)
        else if vpd.getD 1 0 ≠ 69 then (2, 0)
        else if vpd.getD 2 0 = 0 then (2, 1)
        else if vpd.getD 2 0 ≠ 82 then (3, 0)
        else (3, 1)) := by
  simp only [token_loop, VPD_TOKEN, List.getD_cons_zero, List.getD_cons_succ]
  norm_num
  generalize vpd.getD 0 0 = a
  generalize vpd.getD 1 0 = b
  generalize vpd.getD 2 0 = c
  generalize vpd.getD 3 0 = d
  split_ifs <;> simp_all

theorem token_loop_of_le (vpd : List Nat) (fuel : Nat) (h : 4 ≤ fuel) :
    token_loop vpd fuel 0 1 = token_loop vpd 4 0 1 := by
  rw [token_loop_four]
  exact token_loop_fuel_le vpd 4 fuel 0 1 _ h (token_loop_four vpd)

theorem VPD_TOKEN_getD_0 : VPD_TOKEN.getD 0 0 = 83 := rfl
theorem VPD_TOKEN_getD_1 : VPD_TOKEN.getD 1 0 = 69 := rfl
theorem VPD_TOKEN_getD_2 : VPD_TOKEN.getD 2 0 = 82 := rfl
theorem VPD_TOKEN_getD_3 : VPD_TOKEN.getD 3 0 = 0 := rfl

/-- With fuel for four evaluations of the loop condition `vpd_token_cmp`
returns: 1 when the four token bytes are those of `VPD_TOKEN`, 0 otherwise. -/
theorem vpd_token_cmp_eq (vpd : List Nat) (fuel : Nat) (h : 4 ≤ fuel) :
    vpd_token_cmp fuel vpd = some (if tokenIsSER vpd then 1 else 0) := by
  unfold vpd_token_cmp
  rw [token_loop_of_le vpd fuel h, token_loop_four]
  simp only [tokenIsSER]
  by_cases h0 : vpd.getD 0 0 = 0
  · simp [-List.getD_eq_getElem?_getD, h0, VPD_TOKEN_getD_0]
  by_cases h0s : vpd.getD 0 0 = 83
  swap
  · simp [-List.getD_eq_getElem?_getD, h0, h0s]
  by_cases h1 : vpd.getD 1 0 = 0
  · simp [-List.getD_eq_getElem?_getD, h0s, h1, VPD_TOKEN_getD_1]
  by_cases h1s : vpd.getD 1 0 = 69
  swap
  · simp [-List.getD_eq_getElem?_getD, h0s, h1, h1s]
  by_cases h2 : vpd.getD 2 0 = 0
  · simp [-List.getD_eq_getElem?_getD, h0s, h1s, h2, VPD_TOKEN_getD_2]
  by_cases h2s : vpd.getD 2 0 = 82
  swap
  · simp [-List.getD_eq_getElem?_getD, h0s, h1s, h2, h2s]
  by_cases h3 : vpd.getD 3 0 = 0
  · simp [-List.getD_eq_getElem?_getD, h0s, h1s, h2s, h3, VPD_TOKEN_getD_3]
  · simp [-List.getD_eq_getElem?_getD, h0s, h1s, h2s, h3, VPD_TOKEN_getD_3]

theorem tokenIsSER_iff_cstr (vpd : List Nat) :
    tokenIsSER vpd = true ↔ cstr (tokenField vpd) = [83, 69, 82] := by
  rcases vpd with _ | ⟨a, _ | ⟨b, _ | ⟨c, _ | ⟨d, rest⟩⟩⟩⟩ <;>
    simp [tokenIsSER, cstr, tokenField, List.takeWhile_cons] <;>
    split_ifs <;> simp_all <;> omega

theorem tokenIsSER_iff_take (vpd : List Nat) (hlen : 4 ≤ vpd.length) :
    tokenIsSER vpd = true ↔ vpd.take 4 = VPD_TOKEN := by
  rcases vpd with _ | ⟨a, _ | ⟨b, _ | ⟨c, _ | ⟨d, rest⟩⟩⟩⟩ <;>
    simp [tokenIsSER, VPD_TOKEN] at hlen ⊢
  tauto

theorem cstr_nil_bytes (vpd : List Nat) (h : cstr (tokenField vpd) = []) :
    vpd.getD 0 0 = 0 := by
  rcases vpd with _ | ⟨a, rest⟩
  · rfl
  · simp only [cstr, tokenField, List.take_succ_cons, List.takeWhile_cons] at h
    simp only [List.getD_cons_zero]
    by_contra hne
    simp [hne] at h

theorem cstr_S_bytes (vpd : List Nat) (h : cstr (tokenField vpd) = [83]) :
    vpd.getD 0 0 = 83 ∧ vpd.getD 1 0 = 0 := by
  rcases vpd with _ | ⟨a, _ | ⟨b, rest⟩⟩ <;>
    simp [cstr, tokenField, List.takeWhile_cons] at h ⊢
  · split_ifs at h
    simp_all
  · split_ifs at h <;> simp_all

theorem cstr_SE_bytes (vpd : List Nat) (h : cstr (tokenField vpd) = [83, 69]) :
    vpd.getD 0 0 = 83 ∧ vpd.getD 1 0 = 69 ∧ vpd.getD 2 0 = 0 := by
  rcases vpd with _ | ⟨a, _ | ⟨b, _ | ⟨c, rest⟩⟩⟩ <;>
    simp [cstr, tokenField, List.takeWhile_cons] at h ⊢
  · split_ifs at h
    simp at h
  · split_ifs at h <;> simp_all
  · split_ifs at h <;> simp_all

/-! ## Storage, validity and initialisation -/

theorem stored_length (mem : Nat → Nat) : (stored mem).length = VPD_SIZE := by
  simp [stored]

theorem eeprom_readbuf_eq_stored (mem : Nat → Nat) (buf : List Nat)
    (h : buf.length = VPD_SIZE) :
    eeprom_readbuf mem VPD_ADDR buf VPD_SIZE = stored mem := by
  unfold eeprom_readbuf stored
  rw [List.drop_of_length_le (le_of_eq h), List.append_nil]

theorem update_checksum_length (cu : ChecksumUtil) (data : List Nat) (size : Nat) :
    (update_checksum cu data size).length = data.length := by
  simp [update_checksum]

theorem stored_writebuf (mem : Nat → Nat) (d : List Nat) (h : d.length = VPD_SIZE) :
    stored (eeprom_writebuf mem VPD_ADDR d VPD_SIZE) = d := by
  apply List.ext_getElem
  · rw [stored_length, h]
  · intro k h1 h2
    have hk : k < VPD_SIZE := by rw [stored_length] at h1; exact h1
    simp only [stored, eeprom_writebuf, VPD_ADDR, List.getElem_map, List.getElem_range,
      Nat.zero_add, Nat.zero_le, true_and, Nat.sub_zero]
    rw [if_pos hk]
    exact List.getD_eq_getElem d 0 h2

theorem wait_not_busy_idle (fuel : Nat) (s : State) (h : s.busy = false) (hf : 1 ≤ fuel) :
    wait_not_busy fuel s = some s := by
  obtain ⟨n, rfl⟩ : ∃ n, fuel = n + 1 := ⟨fuel - 1, by omega⟩
  simp [wait_not_busy, eeprom_isbusy, h]

/-- On a storage that stays busy the wait loop never exits, whatever the
fuel. -/
theorem wait_not_busy_busy (fuel : Nat) (s : State) (h : s.busy = true) :
    wait_not_busy fuel s = none := by
  induction fuel with
  | zero => rfl
  | succ n ih => simp [wait_not_busy, eeprom_isbusy, h, ih]

/-- The value of `vpd_is_data_valid`, as the code computes it: 0 when the
checksum verification fails or when the token bytes are those of `VPD_TOKEN`,
1 otherwise. -/
theorem vpd_is_data_valid_eq (cu : ChecksumUtil) (fuel : Nat) (vpd : List Nat)
    (h : 4 ≤ fuel) :
    vpd_is_data_valid cu fuel vpd =
      some (if cu.is_checksum_valid vpd VPD_SIZE = false then 0
        else if tokenIsSER vpd then 0 else 1) := by
  unfold vpd_is_data_valid
  rw [vpd_token_cmp_eq vpd fuel h]
  cases tokenIsSER vpd <;> cases cu.is_checksum_valid vpd VPD_SIZE <;> rfl

/-- On an idle storage `vpd_init` returns: without the repair when the record
read has an accepted checksum and token bytes other than those of `VPD_TOKEN`,
after the repair otherwise. -/
theorem vpd_init_eq (cu : ChecksumUtil) (fuel : Nat) (s : State)
    (hfuel : 4 ≤ fuel) (hbusy : s.busy = false) :
    vpd_init cu fuel s =
      some (if cu.is_checksum_valid (loaded s).vpd VPD_SIZE = true
              ∧ tokenIsSER (loaded s).vpd = false
            then loaded s else repaired cu s) := by
  unfold vpd_init
  rw [wait_not_busy_idle fuel s hbusy (by omega)]
  simp only
  rw [vpd_is_data_valid_eq cu fuel _ hfuel]
  simp only [loaded, repaired]
  cases tokenIsSER (eeprom_readbuf s.eeprom VPD_ADDR s.vpd VPD_SIZE) <;>
    cases cu.is_checksum_valid (eeprom_readbuf s.eeprom VPD_ADDR s.vpd VPD_SIZE) VPD_SIZE <;>
    simp

theorem repaired_fields (cu : ChecksumUtil) (s : State)
    (hvpd : s.vpd.length = VPD_SIZE) (hdef : s.defaults.length = VPD_SIZE) :
    (repaired cu s).vpd = update_checksum cu s.defaults VPD_SIZE ∧
    (repaired cu s).defaults = update_checksum cu s.defaults VPD_SIZE ∧
    stored (repaired cu s).eeprom = update_checksum cu s.defaults VPD_SIZE ∧
    (repaired cu s).busy = s.busy := by
  have hd : (update_checksum cu s.defaults VPD_SIZE).length = VPD_SIZE := by
    rw [update_checksum_length, hdef]
  simp only [repaired, vpd_write_defaults]
  rw [eeprom_readbuf_eq_stored _ _ hvpd,
    eeprom_readbuf_eq_stored _ _ (stored_length _), stored_writebuf _ _ hd]
  simp

theorem loaded_fields (s : State) (hvpd : s.vpd.length = VPD_SIZE) :
    (loaded s).vpd = stored s.eeprom ∧ (loaded s).defaults = s.defaults ∧
    (loaded s).eeprom = s.eeprom ∧ (loaded s).busy = s.busy := by
  simp only [loaded]
  rw [eeprom_readbuf_eq_stored _ _ hvpd]
  simp

/-! ## The sum-of-bytes checksum -/

theorem set_last_eq (l : List Nat) (n c : Nat) (h : l.length = n + 1) :
    l.set n c = l.take n ++ [c] := by
  rw [List.set_eq_take_append_cons_drop, if_pos (by omega),
    List.drop_of_length_le (by omega)]

/-- The sum-of-bytes utility meets the contract of the checksum utility. -/
theorem sumChecksum_meets : sumChecksum.Meets := by
  intro data hlen
  have h54 : data.length = 54 + 1 := hlen
  simp only [sumChecksum, update_checksum, VPD_SIZE, beq_iff_eq]
  rw [set_last_eq data 54 _ h54]
  rw [List.take_of_length_le (by simp [List.length_take, hlen])]
  rw [List.sum_append]
  simp only [Nat.add_one_sub_one, List.sum_cons, List.sum_nil, Nat.add_zero]
  omega

/-- The sum-of-bytes utility rejects every record obtained from an accepted
one by flipping one bit of the checksum byte. -/
theorem sumChecksum_rejects_bit_flip (R : List Nat) (k : Nat)
    (hlen : R.length = VPD_SIZE) (hbyte : R.getD (VPD_SIZE - 1) 0 < 256) (hk : k < 8)
    (hok : sumChecksum.is_checksum_valid R VPD_SIZE = true) :
    sumChecksum.is_checksum_valid
      (R.set (VPD_SIZE - 1) (Nat.xor (R.getD (VPD_SIZE - 1) 0) (2 ^ k))) VPD_SIZE = false := by
  have h54 : R.length = 54 + 1 := hlen
  have hself : R = R.take 54 ++ [R.getD 54 0] := by
    have h := set_last_eq R 54 (R.getD 54 0) h54
    rw [← h]
    apply List.ext_getElem
    · simp
    · intro n h1 h2
      rw [List.getElem_set]
      split
      · rename_i hn
        subst hn
        exact (List.getD_eq_getElem R 0 h1).symm
      · rfl
  have hx : Nat.xor (R.getD 54 0) (2 ^ k) < 2 ^ 8 :=
    Nat.xor_lt_two_pow (by simpa using hbyte)
      (Nat.pow_lt_pow_right (by decide) hk)
  have hne : Nat.xor (R.getD 54 0) (2 ^ k) ≠ R.getD 54 0 := by
    intro h
    have h0 : (R.getD 54 0) ^^^ (2 ^ k) = (R.getD 54 0) ^^^ 0 := by
      rw [Nat.xor_zero]; exact h
    have := Nat.xor_right_inj.mp h0
    exact absurd this (by positivity)
  simp only [sumChecksum, VPD_SIZE, beq_iff_eq, Nat.add_one_sub_one] at hok ⊢
  rw [set_last_eq R 54 _ h54]
  rw [List.take_of_length_le (by simp [List.length_take, hlen])]
  rw [List.take_of_length_le (by omega)] at hok
  rw [hself] at hok
  rw [List.sum_append] at hok ⊢
  simp only [List.sum_cons, List.sum_nil, Nat.add_zero] at hok ⊢
  simp only [VPD_SIZE, Nat.add_one_sub_one] at hbyte
  generalize Nat.xor (R.getD 54 0) (2 ^ k) = c' at *
  generalize R.getD 54 0 = c at *
  simp only [beq_eq_false_iff_ne, ne_eq]
  omega

/-! ## Claims -/

/-- C1: for every record image `R` of `VPD_SIZE` bytes, `vpd_token_cmp` returns
(with fuel for four evaluations of the loop condition it does return) and the
result is 1 if and only if the token field of `R`, read as a null-terminated
string, is exactly `"SER"`, that is if and only if bytes 0 to 3 of `R` are
`S`, `E`, `R` and the null character; for every other token, a strict prefix of
`"SER"` or a string with `"SER"` as a strict prefix included, the result is
0. -/
theorem vpd_token_cmp_iff_SER (fuel : Nat) (R : List Nat) (hfuel : 4 ≤ fuel)
    (hlen : R.length = VPD_SIZE) :
    (vpd_token_cmp fuel R = some 1 ↔ cstr (tokenField R) = [83, 69, 82]) ∧
    (vpd_token_cmp fuel R = some 1 ↔ R.take 4 = [83, 69, 82, 0]) ∧
    (cstr (tokenField R) ≠ [83, 69, 82] → vpd_token_cmp fuel R = some 0) := by
  have hcmp := vpd_token_cmp_eq R fuel hfuel
  have h4 : 4 ≤ R.length := by rw [hlen]; decide
  have htake := tokenIsSER_iff_take R h4
  have hstr := tokenIsSER_iff_cstr R
  cases hser : tokenIsSER R with
  | true =>
    rw [hser] at hcmp htake hstr
    simp only [if_true] at hcmp
    refine ⟨?_, ?_, ?_⟩
    · exact ⟨fun _ => hstr.mp rfl, fun _ => hcmp⟩
    · exact ⟨fun _ => htake.mp rfl, fun _ => hcmp⟩
    · intro hne
      exact absurd (hstr.mp rfl) hne
  | false =>
    rw [hser] at hcmp htake hstr
    simp only [Bool.false_eq_true, if_false] at hcmp
    refine ⟨?_, ?_, ?_⟩
    · constructor
      · intro h1
        rw [hcmp] at h1
        exact absurd h1 (by decide)
      · intro hs
        exact absurd (hstr.mpr hs) (by decide)
    · constructor
      · intro h1
        rw [hcmp] at h1
        exact absurd h1 (by decide)
      · intro hs
        exact absurd (htake.mpr hs) (by decide)
    · intro _
      exact hcmp

/-- Witness of C1 on the image of the compiled-in defaults, whose token is
`"SER"`, with fuel 4. -/
theorem vpd_token_cmp_iff_SER_witness :
    (4 ≤ 4 ∧ defaults.toBytes.length = VPD_SIZE) ∧
    ((vpd_token_cmp 4 defaults.toBytes = some 1 ↔
        cstr (tokenField defaults.toBytes) = [83, 69, 82]) ∧
     (vpd_token_cmp 4 defaults.toBytes = some 1 ↔
        defaults.toBytes.take 4 = [83, 69, 82, 0]) ∧
     (cstr (tokenField defaults.toBytes) ≠ [83, 69, 82] →
        vpd_token_cmp 4 defaults.toBytes = some 0)) :=
  ⟨⟨by decide, by decide⟩,
    vpd_token_cmp_iff_SER 4 defaults.toBytes (by decide) (by decide)⟩

/-- C2 (evaluation of the code): on the record `defaultsSummed`, whose token
is `"SER"` (so `vpd_token_cmp` returns 1) and whose checksum the sum-of-bytes
utility accepts, `vpd_is_data_valid` returns 0; on the zero record, whose
token does not match (`vpd_token_cmp` returns 0) and whose checksum is
accepted, it returns 1. -/
theorem vpd_is_data_valid_inverts_token_test :
    (vpd_token_cmp 4 defaultsSummed = some 1 ∧
      sumChecksum.is_checksum_valid defaultsSummed VPD_SIZE = true ∧
      vpd_is_data_valid sumChecksum 4 defaultsSummed = some 0) ∧
    (vpd_token_cmp 4 zeroRecord = some 0 ∧
      sumChecksum.is_checksum_valid zeroRecord VPD_SIZE = true ∧
      vpd_is_data_valid sumChecksum 4 zeroRecord = some 1) := by
  decide

/-- C3 (evaluation of the code): started on an idle storage whose record has
the bad token `"XYZ"` and a checksum that the sum-of-bytes utility accepts,
`vpd_init` returns without the repair: the live record is the stored record,
the defaults have no checksum yet and the storage still holds the record with
the bad token, not the defaults. -/
theorem vpd_init_keeps_bad_token :
    vpd_token_cmp 4 badTokenRecord = some 0 ∧
    sumChecksum.is_checksum_valid badTokenRecord VPD_SIZE = true ∧
    (vpd_init sumChecksum 4 (bootState (memOf badTokenRecord))).map observe =
      some (badTokenRecord, defaults.toBytes, badTokenRecord) ∧
    badTokenRecord ≠ defaultsSummed := by
  decide

/-- C4 (evaluation of the code): started on an idle storage whose record has
the token `"SER"`, a checksum that the sum-of-bytes utility accepts and fields
other than the default ones, `vpd_is_data_valid` returns 0 after the first
read and `vpd_init` repairs: live record and storage end as the defaults, not
as the record that was stored. -/
theorem vpd_init_overwrites_valid_record :
    vpd_token_cmp 4 otherRecord = some 1 ∧
    sumChecksum.is_checksum_valid otherRecord VPD_SIZE = true ∧
    stored (memOf otherRecord) = otherRecord ∧
    vpd_is_data_valid sumChecksum 4 otherRecord = some 0 ∧
    (vpd_init sumChecksum 4 (bootState (memOf otherRecord))).map observe =
      some (defaultsSummed, defaultsSummed, defaultsSummed) ∧
    otherRecord ≠ defaultsSummed := by
  decide

/-- C5 (evaluation of the code): with the sum-of-bytes utility, which meets
the contract of the checksum utility and accepts the zero buffer, `vpd_init`
started on an idle storage of zero bytes leaves the live record and the
storage zeroed: neither holds the default record. -/
theorem vpd_init_keeps_zero_storage :
    sumChecksum.Meets ∧
    sumChecksum.is_checksum_valid zeroRecord VPD_SIZE = true ∧
    (vpd_init sumChecksum 4 (bootState (memOf zeroRecord))).map observe =
      some (zeroRecord, defaults.toBytes, zeroRecord) ∧
    zeroRecord ≠ defaultsSummed ∧ zeroRecord ≠ defaults.toBytes :=
  ⟨sumChecksum_meets, by decide, by decide, by decide, by decide⟩

/-- C6 (evaluation of the code): from the start-up state over an erased
storage, `vpd_write_defaults` followed by the read of `VPD_SIZE` bytes gives a
live record equal to the defaults with their checksum, which the sum-of-bytes
utility accepts, and on that live record `vpd_is_data_valid` returns 0. -/
theorem vpd_is_data_valid_rejects_written_defaults :
    eeprom_readbuf (vpd_write_defaults sumChecksum (bootState (memOf []))).eeprom
        VPD_ADDR (vpd_write_defaults sumChecksum (bootState (memOf []))).vpd VPD_SIZE
      = defaultsSummed ∧
    (vpd_write_defaults sumChecksum (bootState (memOf []))).defaults = defaultsSummed ∧
    sumChecksum.is_checksum_valid defaultsSummed VPD_SIZE = true ∧
    vpd_is_data_valid sumChecksum 4 defaultsSummed = some 0 := by
  decide

/-- C7 (evaluation of the code): started on an idle storage whose record has
an empty token and a checksum that the sum-of-bytes utility accepts,
`vpd_init` leaves a live record that is the stored one, although its token is
not `"SER"`, and that is not the default record either. -/
theorem vpd_init_live_record_neither_valid_nor_default :
    (vpd_init sumChecksum 4 (bootState (memOf strayRecord))).map observe =
      some (strayRecord, defaults.toBytes, strayRecord) ∧
    vpd_token_cmp 4 strayRecord = some 0 ∧
    cstr (tokenField strayRecord) ≠ [83, 69, 82] ∧
    strayRecord ≠ defaultsSummed ∧ strayRecord ≠ defaults.toBytes := by
  decide

/-- C8: for every record `R` whose token is `"SER"` and on which the checksum
verification fails (the case of a checksum byte one bit away from an accepted
one), the token comparison returns 1 and `vpd_is_data_valid` returns 0; and
`vpd_init`, started on an idle storage that holds `R`, returns after the
repair: defaults and storage are those that `vpd_write_defaults` leaves, so
that the storage bytes 0 to 54 and the live record are the default record
with its checksum. -/
theorem vpd_init_repairs_bad_checksum (cu : ChecksumUtil) (fuel : Nat) (s : State)
    (R : List Nat) (hfuel : 4 ≤ fuel) (hbusy : s.busy = false)
    (hvpd : s.vpd.length = VPD_SIZE) (hdef : s.defaults.length = VPD_SIZE)
    (hR : stored s.eeprom = R) (htok : cstr (tokenField R) = [83, 69, 82])
    (hbad : cu.is_checksum_valid R VPD_SIZE = false) :
    vpd_token_cmp fuel R = some 1 ∧
    vpd_is_data_valid cu fuel R = some 0 ∧
    ∃ s', vpd_init cu fuel s = some s' ∧
      s'.defaults = (vpd_write_defaults cu { s with vpd := R }).defaults ∧
      s'.eeprom = (vpd_write_defaults cu { s with vpd := R }).eeprom ∧
      stored s'.eeprom = update_checksum cu s.defaults VPD_SIZE ∧
      s'.vpd = update_checksum cu s.defaults VPD_SIZE := by
  have hser : tokenIsSER R = true := (tokenIsSER_iff_cstr R).mpr htok
  have hload := loaded_fields s hvpd
  have hrep := repaired_fields cu s hvpd hdef
  refine ⟨?_, ?_, repaired cu s, ?_, ?_, ?_, hrep.2.2.1, hrep.1⟩
  · rw [vpd_token_cmp_eq R fuel hfuel, hser]; rfl
  · rw [vpd_is_data_valid_eq cu fuel R hfuel, hbad]; rfl
  · rw [vpd_init_eq cu fuel s hfuel hbusy, hload.1, hR, hbad]
    simp
  · rw [hrep.2.1]; rfl
  · simp only [repaired, vpd_write_defaults]

/-- Witness of C8 with the sum-of-bytes utility, on the start-up state over a
storage that holds the defaults with the lowest bit of the checksum byte
flipped. -/
theorem vpd_init_repairs_bad_checksum_witness :
    vpd_token_cmp 4 flippedRecord = some 1 ∧
    vpd_is_data_valid sumChecksum 4 flippedRecord = some 0 ∧
    ∃ s', vpd_init sumChecksum 4 (bootState (memOf flippedRecord)) = some s' ∧
      s'.defaults = (vpd_write_defaults sumChecksum
        { bootState (memOf flippedRecord) with vpd := flippedRecord }).defaults ∧
      s'.eeprom = (vpd_write_defaults sumChecksum
        { bootState (memOf flippedRecord) with vpd := flippedRecord }).eeprom ∧
      stored s'.eeprom =
        update_checksum sumChecksum (bootState (memOf flippedRecord)).defaults VPD_SIZE ∧
      s'.vpd =
        update_checksum sumChecksum (bootState (memOf flippedRecord)).defaults VPD_SIZE :=
  vpd_init_repairs_bad_checksum sumChecksum 4 (bootState (memOf flippedRecord))
    flippedRecord (by decide) rfl (by decide) (by decide) (by decide) (by decide)
    (by decide)

/-- C9: for every state whose defaults are a `VPD_SIZE`-byte image,
`vpd_write_defaults` leaves the live record (and the busy flag) unchanged;
the checksum byte of the defaults, byte 54, becomes the value that the
checksum utility computes over the defaults, and no other byte of the
defaults changes; the storage cells 0 to 54 receive exactly the bytes of the
updated defaults, and no cell from address 55 on changes. -/
theorem vpd_write_defaults_frame (cu : ChecksumUtil) (s : State)
    (hdef : s.defaults.length = VPD_SIZE) :
    (vpd_write_defaults cu s).vpd = s.vpd ∧
    (vpd_write_defaults cu s).busy = s.busy ∧
    (vpd_write_defaults cu s).defaults.length = VPD_SIZE ∧
    (vpd_write_defaults cu s).defaults.getD 54 0 = cu.checksum s.defaults VPD_SIZE ∧
    (∀ k, k ≠ 54 →
      (vpd_write_defaults cu s).defaults.getD k 0 = s.defaults.getD k 0) ∧
    (∀ a, a < 55 →
      (vpd_write_defaults cu s).eeprom a = (vpd_write_defaults cu s).defaults.getD a 0) ∧
    stored (vpd_write_defaults cu s).eeprom = (vpd_write_defaults cu s).defaults ∧
    (∀ a, 55 ≤ a → (vpd_write_defaults cu s).eeprom a = s.eeprom a) := by
  have hd : (update_checksum cu s.defaults VPD_SIZE).length = VPD_SIZE := by
    rw [update_checksum_length, hdef]
  refine ⟨rfl, rfl, hd, ?_, ?_, ?_, ?_, ?_⟩
  · simp only [vpd_write_defaults, update_checksum, VPD_SIZE, Nat.add_one_sub_one]
    rw [List.getD_eq_getElem _ 0 (by rw [List.length_set, hdef]; decide)]
    exact List.getElem_set_self _
  · intro k hk
    simp only [vpd_write_defaults, update_checksum, VPD_SIZE, Nat.add_one_sub_one]
    rw [List.getD_eq_getElem?_getD, List.getD_eq_getElem?_getD,
      List.getElem?_set_ne (Ne.symm hk)]
  · intro a ha
    simp only [vpd_write_defaults, eeprom_writebuf, VPD_ADDR, VPD_SIZE, Nat.zero_le,
      true_and, Nat.zero_add, Nat.sub_zero]
    rw [if_pos ha]
  · exact stored_writebuf _ _ hd
  · intro a ha
    simp only [vpd_write_defaults, eeprom_writebuf, VPD_ADDR, VPD_SIZE, Nat.zero_le,
      true_and, Nat.zero_add]
    rw [if_neg (by omega)]

/-- Witness of C9 with the sum-of-bytes utility on the start-up state over an
erased storage. -/
theorem vpd_write_defaults_frame_witness :
    (bootState (memOf [])).defaults.length = VPD_SIZE ∧
    (vpd_write_defaults sumChecksum (bootState (memOf []))).vpd =
      (bootState (memOf [])).vpd ∧
    (vpd_write_defaults sumChecksum (bootState (memOf []))).defaults.getD 54 0 =
      sumChecksum.checksum (bootState (memOf [])).defaults VPD_SIZE ∧
    stored (vpd_write_defaults sumChecksum (bootState (memOf []))).eeprom =
      (vpd_write_defaults sumChecksum (bootState (memOf []))).defaults ∧
    (vpd_write_defaults sumChecksum (bootState (memOf []))).eeprom 55 =
      (bootState (memOf [])).eeprom 55 :=
  have h := vpd_write_defaults_frame sumChecksum (bootState (memOf [])) (by decide)
  ⟨by decide, h.1, h.2.2.2.1, h.2.2.2.2.2.2.1, h.2.2.2.2.2.2.2 55 (by decide)⟩

/-- C10: for every record image whose token, read as a null-terminated string,
is a strict prefix `p` of `"SER"` (the empty string, `"S"` or `"SE"`), the
comparison loop of `vpd_token_cmp` exits at the index of the terminator with
`ret` still 1, the bytes compared after the loop at that index differ, and
`vpd_token_cmp` returns 0. -/
theorem vpd_token_cmp_strict_prefix (fuel : Nat) (R p : List Nat) (hfuel : 4 ≤ fuel)
    (hp : p = [] ∨ p = [83] ∨ p = [83, 69])
    (htok : cstr (tokenField R) = p) :
    token_loop R fuel 0 1 = some (p.length, 1) ∧
    R.getD p.length 0 ≠ VPD_TOKEN.getD p.length 0 ∧
    vpd_token_cmp fuel R = some 0 := by
  have hloop := token_loop_of_le R fuel hfuel
  rw [token_loop_four] at hloop
  have hcmp := vpd_token_cmp_eq R fuel hfuel
  rcases hp with rfl | rfl | rfl
  · have h0 := cstr_nil_bytes R htok
    refine ⟨?_, ?_, ?_⟩
    · rw [hloop, if_pos h0]; rfl
    · show R.getD 0 0 ≠ VPD_TOKEN.getD 0 0
      rw [h0, VPD_TOKEN_getD_0]; decide
    · rw [hcmp]; simp [tokenIsSER, -List.getD_eq_getElem?_getD, h0]
  · obtain ⟨h0, h1⟩ := cstr_S_bytes R htok
    refine ⟨?_, ?_, ?_⟩
    · rw [hloop]; simp [-List.getD_eq_getElem?_getD, h0, h1]
    · show R.getD 1 0 ≠ VPD_TOKEN.getD 1 0
      rw [h1, VPD_TOKEN_getD_1]; decide
    · rw [hcmp]; simp [tokenIsSER, -List.getD_eq_getElem?_getD, h0, h1]
  · obtain ⟨h0, h1, h2⟩ := cstr_SE_bytes R htok
    refine ⟨?_, ?_, ?_⟩
    · rw [hloop]; simp [-List.getD_eq_getElem?_getD, h0, h1, h2]
    · show R.getD 2 0 ≠ VPD_TOKEN.getD 2 0
      rw [h2, VPD_TOKEN_getD_2]; decide
    · rw [hcmp]; simp [tokenIsSER, -List.getD_eq_getElem?_getD, h0, h1, h2]

/-- Witness of C10 on a record of `VPD_SIZE` bytes whose token is `"SE"`. -/
theorem vpd_token_cmp_strict_prefix_witness :
    (4 ≤ 4 ∧ cstr (tokenField ([83, 69] ++ List.replicate 53 0)) = [83, 69]) ∧
    token_loop ([83, 69] ++ List.replicate 53 0) 4 0 1 = some (2, 1) ∧
    ([83, 69] ++ List.replicate 53 0).getD 2 0 ≠ VPD_TOKEN.getD 2 0 ∧
    vpd_token_cmp 4 ([83, 69] ++ List.replicate 53 0) = some 0 :=
  ⟨⟨by decide, by decide⟩,
    vpd_token_cmp_strict_prefix 4 ([83, 69] ++ List.replicate 53 0) [83, 69]
      (by decide) (Or.inr (Or.inr rfl)) (by decide)⟩

/-! ## The observed run of the token comparison -/

/-- The literal `VPD_TOKEN` is non-null only at the indices 0, 1 and 2. -/
theorem VPD_TOKEN_nonnull_lt (i : Nat) (h : (VPD_TOKEN.getD i 0 != 0) = true) : i < 3 := by
  by_contra hge
  have h3 : 3 ≤ i := by omega
  obtain ⟨k, rfl⟩ : ∃ k, i = k + 3 := ⟨i - 3, by omega⟩
  simp [VPD_TOKEN] at h

/-- The recorded loop follows the loop of `vpd_token_cmp`, and from an index
of at most 3 it exits, with fuel for the remaining evaluations of the
condition, at an index of at most 3, after at most as many iterations as the
exit index, having read only indices up to 3. -/
theorem token_loop_run_spec (vpd : List Nat) (fuel : Nat) (r : CmpRun)
    (hi : r.i ≤ 3) (hfuel : 4 ≤ fuel + r.i) (hit : r.iterations ≤ r.i)
    (htr : ∀ k ∈ r.tokenReads, k ≤ 3) (hlr : ∀ k ∈ r.literalReads, k ≤ 3) :
    ∃ q, token_loop_run vpd fuel r = some q ∧
      token_loop vpd fuel r.i r.ret = some (q.i, q.ret) ∧
      q.i ≤ 3 ∧ q.iterations ≤ q.i ∧
      (∀ k ∈ q.tokenReads, k ≤ 3) ∧ (∀ k ∈ q.literalReads, k ≤ 3) := by
  induction fuel generalizing r with
  | zero => omega
  | succ n ih =>
    have hmem : ∀ l : List Nat, (∀ k ∈ l, k ≤ 3) → ∀ k ∈ l ++ [r.i], k ≤ 3 := by
      intro l hl k hk
      rcases List.mem_append.mp hk with h | h
      · exact hl k h
      · rw [List.mem_singleton.mp h]; exact hi
    have hmem2 : ∀ l : List Nat, (∀ k ∈ l, k ≤ 3) → ∀ k ∈ l ++ [r.i, r.i], k ≤ 3 := by
      intro l hl k hk
      rcases List.mem_append.mp hk with h | h
      · exact hl k h
      · simp only [List.mem_cons, List.mem_singleton, List.not_mem_nil, or_false,
          or_self] at h
        rw [h]; exact hi
    have hcond : (vpd.getD r.i 0 != 0 && VPD_TOKEN.getD r.i 0 != 0 && r.ret != 0) =
        ((vpd.getD r.i 0 != 0) && ((VPD_TOKEN.getD r.i 0 != 0) && (r.ret != 0))) :=
      Bool.and_assoc _ _ _
    rw [token_loop_run, token_loop, hcond]
    cases h1 : (vpd.getD r.i 0 != 0)
    · simp only [Bool.false_and, Bool.false_eq_true, if_false]
      exact ⟨_, rfl, rfl, hi, hit, hmem _ htr, hlr⟩
    · cases h2 : (VPD_TOKEN.getD r.i 0 != 0)
      · simp only [Bool.true_and, Bool.false_and, Bool.false_eq_true, if_false, if_true]
        exact ⟨_, rfl, rfl, hi, hit, hmem _ htr, hmem _ hlr⟩
      · cases h3 : (r.ret != 0)
        · simp only [Bool.true_and, Bool.false_eq_true, if_false, if_true]
          exact ⟨_, rfl, rfl, hi, hit, hmem _ htr, hmem _ hlr⟩
        · have hlt : r.i < 3 := VPD_TOKEN_nonnull_lt r.i h2
          have hmod : (r.i + 1) % 256 = r.i + 1 := Nat.mod_eq_of_lt (by omega)
          simp only [Bool.true_and, if_true, hmod]
          exact ih
            { i := r.i + 1
              ret := if vpd.getD r.i 0 != VPD_TOKEN.getD r.i 0 then 0 else r.ret
              iterations := r.iterations + 1
              tokenReads := r.tokenReads ++ [r.i, r.i]
              literalReads := r.literalReads ++ [r.i, r.i] }
            (by show r.i + 1 ≤ 3; omega) (by show 4 ≤ n + (r.i + 1); omega)
            (by show r.iterations + 1 ≤ r.i + 1; omega)
            (hmem2 _ htr) (hmem2 _ hlr)

/-! ## Repeated initialisation -/

theorem take_set_same (l : List Nat) (n c : Nat) : (l.set n c).take n = l.take n := by
  apply List.ext_getElem?
  intro k
  rw [List.getElem?_take, List.getElem?_take]
  split
  · rename_i hk
    rw [List.getElem?_set_ne (by omega)]
  · rfl

/-- When the checksum is determined by the first 54 bytes, updating the
checksum of a buffer that has just been updated changes nothing. -/
theorem update_checksum_twice (cu : ChecksumUtil) (hdet : cu.FromBody) (d : List Nat) :
    update_checksum cu (update_checksum cu d VPD_SIZE) VPD_SIZE =
      update_checksum cu d VPD_SIZE := by
  have hc : cu.checksum (update_checksum cu d VPD_SIZE) VPD_SIZE = cu.checksum d VPD_SIZE :=
    hdet _ _ (take_set_same d (VPD_SIZE - 1) _)
  unfold update_checksum at hc ⊢
  rw [hc, List.set_set]

theorem eeprom_writebuf_twice (mem : Nat → Nat) (d : List Nat) :
    eeprom_writebuf (eeprom_writebuf mem VPD_ADDR d VPD_SIZE) VPD_ADDR d VPD_SIZE =
      eeprom_writebuf mem VPD_ADDR d VPD_SIZE := by
  funext a
  simp only [eeprom_writebuf]
  split <;> rfl

theorem sumChecksum_fromBody : sumChecksum.FromBody := by
  intro d e h
  simp only [sumChecksum]
  rw [h]

/-! ## Claims on the code as written -/

/-- C11: for every record image `R`, `vpd_is_data_valid` returns (0 or 1), and
it returns 1 exactly when `vpd_token_cmp` returns 0 on `R`, the token not
being `"SER"`, and the checksum utility accepts the `VPD_SIZE` bytes; on every
record whose token is `"SER"` it returns 0, whatever the verdict on the
checksum. -/
theorem vpd_is_data_valid_iff_token_mismatch (cu : ChecksumUtil) (fuel : Nat)
    (R : List Nat) (hfuel : 4 ≤ fuel) :
    (vpd_is_data_valid cu fuel R = some 1 ↔
      vpd_token_cmp fuel R = some 0 ∧ cu.is_checksum_valid R VPD_SIZE = true) ∧
    (vpd_is_data_valid cu fuel R = some 1 ∨ vpd_is_data_valid cu fuel R = some 0) ∧
    (vpd_token_cmp fuel R = some 0 ↔ cstr (tokenField R) ≠ [83, 69, 82]) ∧
    (cstr (tokenField R) = [83, 69, 82] → vpd_is_data_valid cu fuel R = some 0) := by
  have hv := vpd_is_data_valid_eq cu fuel R hfuel
  have hc := vpd_token_cmp_eq R fuel hfuel
  have hs := tokenIsSER_iff_cstr R
  cases hser : tokenIsSER R <;> cases hok : cu.is_checksum_valid R VPD_SIZE <;>
    rw [hser] at hc hs <;> rw [hser, hok] at hv <;> rw [hv, hc] <;>
    simp [← hs]

/-- Witness of C11 with the sum-of-bytes utility on the record of zero bytes,
on which `vpd_is_data_valid` returns 1. -/
theorem vpd_is_data_valid_iff_token_mismatch_witness :
    4 ≤ 4 ∧ vpd_is_data_valid sumChecksum 4 zeroRecord = some 1 ∧
    vpd_token_cmp 4 zeroRecord = some 0 ∧
    sumChecksum.is_checksum_valid zeroRecord VPD_SIZE = true :=
  have h := vpd_is_data_valid_iff_token_mismatch sumChecksum 4 zeroRecord (by decide)
  ⟨by decide, h.1.mpr ⟨by decide, by decide⟩, (h.1.mp (h.1.mpr ⟨by decide, by decide⟩)).1,
    by decide⟩

/-- C12: for every record image, one without a null byte in the token field
included, `vpd_token_cmp` returns, the loop body having run at most 3 times,
and every read of `vpd.token` and of the literal `VPD_TOKEN`, in the loop
condition, in the loop body and in the comparison after the loop, is at an
index from 0 to 3. -/
theorem vpd_token_cmp_reads_within_token (fuel : Nat) (vpd : List Nat) (hfuel : 4 ≤ fuel) :
    ∃ v r, vpd_token_cmp_run fuel vpd = some (v, r) ∧
      vpd_token_cmp fuel vpd = some v ∧
      r.iterations ≤ 3 ∧
      (∀ k ∈ r.tokenReads, k ≤ 3) ∧ (∀ k ∈ r.literalReads, k ≤ 3) := by
  obtain ⟨q, hrun, hloop, hi, hit, htr, hlr⟩ := token_loop_run_spec vpd fuel
    { i := 0, ret := 1, iterations := 0, tokenReads := [], literalReads := [] }
    (by decide) (by simpa using hfuel) (le_refl 0)
    (by intro k hk; cases hk) (by intro k hk; cases hk)
  have hmem : ∀ l : List Nat, (∀ k ∈ l, k ≤ 3) → ∀ k ∈ l ++ [q.i], k ≤ 3 := by
    intro l hl k hk
    rcases List.mem_append.mp hk with h | h
    · exact hl k h
    · rw [List.mem_singleton.mp h]; exact hi
  have hloop0 : token_loop vpd fuel 0 1 = some (q.i, q.ret) := hloop
  refine ⟨if vpd.getD q.i 0 != VPD_TOKEN.getD q.i 0 then 0 else q.ret,
    { q with
      tokenReads := q.tokenReads ++ [q.i]
      literalReads := q.literalReads ++ [q.i] }, ?_, ?_, ?_, ?_, ?_⟩
  · unfold vpd_token_cmp_run
    rw [hrun]
  · unfold vpd_token_cmp
    rw [hloop0]
  · exact le_trans hit hi
  · exact hmem _ htr
  · exact hmem _ hlr

/-- Witness of C12 on a record with no null byte: three iterations, reads at
the indices 0 to 3, result 0. -/
theorem vpd_token_cmp_reads_within_token_witness :
    (4 ≤ 4 ∧ vpd_token_cmp_run 4 unterminatedRecord =
      some (0, { i := 3, ret := 1, iterations := 3,
                 tokenReads := [0, 0, 1, 1, 2, 2, 3, 3],
                 literalReads := [0, 0, 1, 1, 2, 2, 3, 3] })) ∧
    ∃ v r, vpd_token_cmp_run 4 unterminatedRecord = some (v, r) ∧
      vpd_token_cmp 4 unterminatedRecord = some v ∧
      r.iterations ≤ 3 ∧
      (∀ k ∈ r.tokenReads, k ≤ 3) ∧ (∀ k ∈ r.literalReads, k ≤ 3) :=
  ⟨⟨by decide, by decide⟩,
    vpd_token_cmp_reads_within_token 4 unterminatedRecord (by decide)⟩

/-- C13: on an idle ideal storage, with a checksum determined by the first 54
bytes of the buffer, `vpd_init` run twice in succession returns both times,
and the second run leaves the live record, the defaults and the storage (its
bytes 0 to 54, and every other cell) as the first run left them. -/
theorem vpd_init_twice (cu : ChecksumUtil) (fuel : Nat) (s : State)
    (hfuel : 4 ≤ fuel) (hbusy : s.busy = false)
    (hvpd : s.vpd.length = VPD_SIZE) (hdef : s.defaults.length = VPD_SIZE)
    (hdet : cu.FromBody) :
    ∃ s1 s2, vpd_init cu fuel s = some s1 ∧ vpd_init cu fuel s1 = some s2 ∧
      s2.vpd = s1.vpd ∧ s2.defaults = s1.defaults ∧
      stored s2.eeprom = stored s1.eeprom ∧ s2.eeprom = s1.eeprom := by
  have hl := loaded_fields s hvpd
  have hr := repaired_fields cu s hvpd hdef
  have hd : (update_checksum cu s.defaults VPD_SIZE).length = VPD_SIZE := by
    rw [update_checksum_length, hdef]
  by_cases hc : cu.is_checksum_valid (loaded s).vpd VPD_SIZE = true
      ∧ tokenIsSER (loaded s).vpd = false
  · -- the first run keeps the stored record; so does the second
    have h1 : vpd_init cu fuel s = some (loaded s) := by
      rw [vpd_init_eq cu fuel s hfuel hbusy, if_pos hc]
    have hb1 : (loaded s).busy = false := by rw [hl.2.2.2, hbusy]
    have hv1 : (loaded s).vpd.length = VPD_SIZE := by rw [hl.1, stored_length]
    have hl1 := loaded_fields (loaded s) hv1
    have hsame : (loaded (loaded s)).vpd = (loaded s).vpd := by
      rw [hl1.1, hl.2.2.1, hl.1]
    have h2 : vpd_init cu fuel (loaded s) = some (loaded (loaded s)) := by
      rw [vpd_init_eq cu fuel (loaded s) hfuel hb1, if_pos (by rw [hsame]; exact hc)]
    refine ⟨loaded s, loaded (loaded s), h1, h2, hsame, hl1.2.1, ?_, hl1.2.2.1⟩
    rw [hl1.2.2.1]
  · -- the first run repairs; the second finds the defaults in storage
    have h1 : vpd_init cu fuel s = some (repaired cu s) := by
      rw [vpd_init_eq cu fuel s hfuel hbusy, if_neg hc]
    have hb1 : (repaired cu s).busy = false := by rw [hr.2.2.2, hbusy]
    have hv1 : (repaired cu s).vpd.length = VPD_SIZE := by rw [hr.1, hd]
    have hd1 : (repaired cu s).defaults.length = VPD_SIZE := by rw [hr.2.1, hd]
    have hl1 := loaded_fields (repaired cu s) hv1
    have hr1 := repaired_fields cu (repaired cu s) hv1 hd1
    have hupd : update_checksum cu (repaired cu s).defaults VPD_SIZE =
        update_checksum cu s.defaults VPD_SIZE := by
      rw [hr.2.1, update_checksum_twice cu hdet]
    have he : (repaired cu s).eeprom =
        eeprom_writebuf s.eeprom VPD_ADDR (update_checksum cu s.defaults VPD_SIZE)
          VPD_SIZE := rfl
    have he1 : (repaired cu (repaired cu s)).eeprom = (repaired cu s).eeprom := by
      have : (repaired cu (repaired cu s)).eeprom =
          eeprom_writebuf (repaired cu s).eeprom VPD_ADDR
            (update_checksum cu (repaired cu s).defaults VPD_SIZE) VPD_SIZE := rfl
      rw [this, hupd, he, eeprom_writebuf_twice]
    by_cases hc1 : cu.is_checksum_valid (loaded (repaired cu s)).vpd VPD_SIZE = true
        ∧ tokenIsSER (loaded (repaired cu s)).vpd = false
    · have h2 : vpd_init cu fuel (repaired cu s) = some (loaded (repaired cu s)) := by
        rw [vpd_init_eq cu fuel (repaired cu s) hfuel hb1, if_pos hc1]
      refine ⟨repaired cu s, loaded (repaired cu s), h1, h2, ?_, hl1.2.1, ?_, hl1.2.2.1⟩
      · rw [hl1.1, hr.2.2.1, hr.1]
      · rw [hl1.2.2.1]
    · have h2 : vpd_init cu fuel (repaired cu s) = some (repaired cu (repaired cu s)) := by
        rw [vpd_init_eq cu fuel (repaired cu s) hfuel hb1, if_neg hc1]
      refine ⟨repaired cu s, repaired cu (repaired cu s), h1, h2, ?_, ?_, ?_, he1⟩
      · rw [hr1.1, hupd, hr.1]
      · rw [hr1.2.1, hupd, hr.2.1]
      · rw [he1]

/-- Witness of C13 with the sum-of-bytes utility on the start-up state over a
storage that holds the defaults with one checksum bit flipped. -/
theorem vpd_init_twice_witness :
    ∃ s1 s2, vpd_init sumChecksum 4 (bootState (memOf flippedRecord)) = some s1 ∧
      vpd_init sumChecksum 4 s1 = some s2 ∧
      s2.vpd = s1.vpd ∧ s2.defaults = s1.defaults ∧
      stored s2.eeprom = stored s1.eeprom ∧ s2.eeprom = s1.eeprom :=
  vpd_init_twice sumChecksum 4 (bootState (memOf flippedRecord)) (by decide) rfl
    (by decide) (by decide) sumChecksum_fromBody

/-- C14: the compiled-in default record has the token `"SER"`, so that
`vpd_token_cmp` returns 1 on its image; its manufacture date is 0; its MAC
bytes, `'t' & 0xFE`, `'y'`, `' '`, `'f'`, `'o'`, `'s'`, are `0x74`, `0x79`,
`0x20`, `0x66`, `0x6F`, `0x73`, in the record and in its image, and the low bit
of the first of them is cleared. -/
theorem defaults_fields (fuel : Nat) (hfuel : 4 ≤ fuel) :
    defaults.token = [83, 69, 82] ∧
    cstr (tokenField defaults.toBytes) = [83, 69, 82] ∧
    vpd_token_cmp fuel defaults.toBytes = some 1 ∧
    defaults.manufacture_date = 0 ∧
    defaults.mac_address = [Nat.land 116 0xFE, 121, 32, 102, 111, 115] ∧
    defaults.mac_address = [0x74, 0x79, 0x20, 0x66, 0x6F, 0x73] ∧
    (defaults.toBytes.drop 44).take 6 = [0x74, 0x79, 0x20, 0x66, 0x6F, 0x73] ∧
    defaults.mac_address.head? = some 0x74 ∧ 0x74 % 2 = 0 ∧ Nat.land 0x74 1 = 0 := by
  refine ⟨rfl, by decide, ?_, rfl, rfl, by decide, by decide, by decide, by decide,
    by decide⟩
  rw [vpd_token_cmp_eq defaults.toBytes fuel hfuel]
  decide

/-- Witness of C14 with fuel 4. -/
theorem defaults_fields_witness :
    4 ≤ 4 ∧ vpd_token_cmp 4 defaults.toBytes = some 1 ∧
    defaults.manufacture_date = 0 ∧
    defaults.mac_address = [0x74, 0x79, 0x20, 0x66, 0x6F, 0x73] :=
  have h := defaults_fields 4 (by decide)
  ⟨by decide, h.2.2.1, h.2.2.2.1, h.2.2.2.2.2.1⟩

end Vpd
